import Mathlib

/-!
Verification of the Mini Drive LAN transfer protocol and session engine
(`pyside_server.py`, `pyside_client.py`).

The development shallowly embeds the path sandbox (`PySideServer.get_full_path`),
the five command handlers, the per-connection session loop, and the client
network engine (`NetworkWorker.do_connect`, `NetworkWorker.download_file`).
POSIX path strings are modelled as `/`-separated segment lists; the file system
is an association list from absolute (normalized) segment paths to nodes;
sockets are modelled by the list of bytes the peer will deliver before EOF,
with each `recv(n)` returning up to `n` of the remaining bytes.
-/

deriving instance DecidableEq for Except

namespace MiniDrive

/-! ## Path model (os.path on POSIX) -/

/-- Segments of an absolute path, already normalized (no `..`, `.`, `""`). -/
abbrev AbsPath := List String

/-- Split a string on `/` characters, as `str.split("/")` does (empty segments
kept; `splitSlash "" = [""]`). -/
def splitSlashAux : List Char → List Char → List String
  | [], cur => [String.mk cur.reverse]
  | c :: cs, cur =>
      if c = '/' then String.mk cur.reverse :: splitSlashAux cs []
      else splitSlashAux cs (c :: cur)

def splitSlash (s : String) : List String := splitSlashAux s.toList []

/-- Join segments with `/` separators. -/
def joinSlash : List String → String
  | [] => ""
  | [s] => s
  | s :: rest => s ++ "/" ++ joinSlash rest

/-- Render a normalized segment list as an absolute path string. -/
def renderAbs (segs : List String) : String := "/" ++ joinSlash segs

/-- Model of `str.lstrip("/")`. -/
def stripLeadSlashes (s : String) : String :=
  String.mk (s.toList.dropWhile (fun c => c = '/'))

/-- Model of Python `str.startswith`: `strStartsWith s pre` is true when `s`
begins with `pre`. -/
def strStartsWith (s pre : String) : Bool := pre.toList.isPrefixOf s.toList

/-- One step of `os.path.abspath` normalization over a reversed segment stack:
empty and `.` segments are dropped, `..` pops (clamped at the root). -/
def normStep (stack : List String) (seg : String) : List String :=
  if seg = "" ∨ seg = "." then stack
  else if seg = ".." then stack.tail
  else seg :: stack

/-- Normalize a raw segment list the way `os.path.abspath` does for an
absolute path. -/
def resolveSegs (segs : List String) : List String :=
  (segs.foldl normStep []).reverse

/-- Directory the server process runs in (`os.path.abspath` base). The server
stores files under `<cwd>/storage`. -/
def cwdSegs : List String := ["home", "user", "proyek"]

/-- Canonical absolute storage root, `os.path.abspath(self.storage)` as
segments. -/
def storageRoot : AbsPath := cwdSegs ++ ["storage"]

/-- Canonical absolute storage root as a string (`base_path` in the source). -/
def basePath : String := renderAbs storageRoot

/-- Resolution of a client-supplied relative path against the storage root:
`os.path.abspath(os.path.join(base_path, relative_path.lstrip("/")))` as
segments. -/
def resolveRel (rel : String) : AbsPath :=
  resolveSegs (storageRoot ++ splitSlash (stripLeadSlashes rel))

/-- Model of `PySideServer.get_full_path`: resolve, then keep the result only
if its string form still begins with the canonical root string; otherwise
raise `Exception("Access denied: Path outside storage")`. -/
def get_full_path (rel : String) : Except String String :=
  let full := renderAbs (resolveRel rel)
  if strStartsWith full basePath then Except.ok full
  else Except.error "Access denied: Path outside storage"

/-- Model of `os.path.join(a, b)` for one join: an absolute `b` replaces `a`
entirely; otherwise the parts are glued with a single separator. -/
def osJoin (a b : String) : String :=
  if strStartsWith b "/" then b
  else if a.toList.getLast? = some '/' then a ++ b
  else a ++ "/" ++ b

/-- Resolve an absolute path string to its normalized segments, as the
operating system does when a file is opened. -/
def resolveAbsStr (s : String) : AbsPath :=
  resolveSegs (splitSlash (stripLeadSlashes s))

/-- True when the relative path contains a `..` segment. -/
def hasDotDot (p : String) : Bool := (splitSlash p).contains ".."

/-! ## File-system model -/

/-- A file-system node: a regular file with content bytes and an mtime, or a
directory with an mtime. -/
inductive Node
  | file (content : List Nat) (mtime : Nat)
  | dir (mtime : Nat)
deriving DecidableEq

/-- The file system: an association list from absolute segment paths to
nodes. Keys are unique in well-formed states. -/
abbrev FS := List (AbsPath × Node)

def fsFind : FS → AbsPath → Option Node
  | [], _ => none
  | e :: rest, p => if e.1 = p then some e.2 else fsFind rest p

def fsErase : FS → AbsPath → FS
  | [], _ => []
  | e :: rest, p => if e.1 = p then fsErase rest p else e :: fsErase rest p

def fsInsert (fs : FS) (p : AbsPath) (n : Node) : FS :=
  (p, n) :: fsErase fs p

/-- Remove a path and everything below it (`shutil.rmtree`). -/
def fsRemoveTree : FS → AbsPath → FS
  | [], _ => []
  | e :: rest, p =>
      if p.isPrefixOf e.1 then fsRemoveTree rest p else e :: fsRemoveTree rest p

def isDir (fs : FS) (p : AbsPath) : Bool :=
  match fsFind fs p with
  | some (Node.dir _) => true
  | _ => false

def isFile (fs : FS) (p : AbsPath) : Bool :=
  match fsFind fs p with
  | some (Node.file _ _) => true
  | _ => false

/-- The name under which `q` is an immediate child of `p`, if it is one. -/
def childName (p q : AbsPath) : Option String :=
  match q.getLast? with
  | none => none
  | some n => if q.dropLast = p then some n else none

/-- Names of the immediate children of directory `p` (`os.listdir`). -/
def childNames (fs : FS) (p : AbsPath) : List String :=
  (fs.map Prod.fst).filterMap (childName p)

/-- Every nonempty prefix of `p`, shortest first. -/
def mkdirPrefixes (p : AbsPath) : List AbsPath :=
  (List.range p.length).map (fun i => p.take (i + 1))

/-- One directory-creation step of `os.makedirs`: an existing directory is
kept, an existing file is an error, a missing entry becomes a directory. -/
def mkdirStep (now : Nat) (acc : Except String FS) (q : AbsPath) : Except String FS :=
  match acc with
  | Except.error e => Except.error e
  | Except.ok fs =>
      match fsFind fs q with
      | some (Node.dir _) => Except.ok fs
      | some (Node.file _ _) => Except.error "Not a directory"
      | none => Except.ok (fsInsert fs q (Node.dir now))

/-- Model of `os.makedirs(p, exist_ok=True)`: create every missing prefix. -/
def makedirs (fs : FS) (p : AbsPath) (now : Nat) : Except String FS :=
  (mkdirPrefixes p).foldl (mkdirStep now) (Except.ok fs)

/-- Model of `open(p, "wb")`: fails on a directory or when the parent is not
a directory; otherwise creates or truncates the file. -/
def writeFileOpen (fs : FS) (p : AbsPath) (now : Nat) : Except String FS :=
  if isDir fs p then Except.error "Is a directory"
  else if isDir fs p.dropLast then Except.ok (fsInsert fs p (Node.file [] now))
  else Except.error "No such file or directory"

/-! ## Wire protocol types -/

/-- One file-system child in a LIST reply. -/
structure Entry where
  name : String
  is_dir : Bool
  size : Nat
  mtime : Nat
deriving DecidableEq

/-- One client request. Absent string fields are modelled as `""` (the code
treats `None` and `""` alike for `filename`, and defaults `path` to `""`);
`size` keeps its optionality because `handle_upload` tests `size is None`. -/
structure Request where
  command : String := ""
  path : String := ""
  filename : String := ""
  size : Option Nat := none
  dirname : String := ""
deriving DecidableEq

/-- One server reply, with the optional fields of the JSON schema. -/
structure Response where
  status : String
  message : Option String := none
  items : Option (List Entry) := none
  current_path : Option String := none
  size : Option Nat := none
deriving DecidableEq

def errResp (m : String) : Response := { status := "error", message := some m }

def readyResp : Response := { status := "ready" }

/-- Observable server-side events of one command, in order: a JSON reply sent,
a `recv` of payload bytes (requested count, obtained count), or raw payload
bytes written to the socket. -/
inductive Ev
  | send (r : Response)
  | recvReq (requested got : Nat)
  | sendBytes (b : List Nat)
deriving DecidableEq

/-- Payload bytes a list of events writes to the socket, in order. -/
def sentPayload (evs : List Ev) : List Nat :=
  (evs.filterMap (fun e =>
    match e with
    | Ev.sendBytes b => some b
    | _ => none)).flatten

/-! ## Transfer loops

The socket is modelled by the byte list the peer will deliver before EOF;
`recv(n)` hands over up to `n` of the remaining bytes, and returns the empty
chunk exactly when the peer has hung up. -/

/-- The bounded-chunk receive loop shared by `handle_upload` (server) and
`download_file` (client): while fewer than `size` bytes have arrived, request
`min(8192, size - received)` bytes; an empty chunk (EOF) breaks the loop.
Returns the bytes written, the final byte count, and the `(requested, got)`
trace of `recv` calls. -/
def recvLoopF : Nat → List Nat → Nat → Nat → List Nat × Nat × List (Nat × Nat)
  | fuel, input, size, received =>
    if received < size then
      match fuel with
      | 0 => ([], received, [])
      | fuel' + 1 =>
          let reqN := min 8192 (size - received)
          let chunk := input.take reqN
          if chunk = [] then ([], received, [(reqN, 0)])
          else
            let out := recvLoopF fuel' (input.drop reqN) size (received + chunk.length)
            (chunk ++ out.1, out.2.1, (reqN, chunk.length) :: out.2.2)
    else ([], received, [])

/-- The receive loop, with just enough fuel: every iteration obtains at least
one byte, so `size - received` iterations always suffice and the fuel never
runs out. -/
def recvLoop (input : List Nat) (size received : Nat) :
    List Nat × Nat × List (Nat × Nat) :=
  recvLoopF (size - received) input size received

def fileChunksF : Nat → List Nat → List (List Nat)
  | fuel, content =>
    if content = [] then []
    else
      match fuel with
      | 0 => []
      | fuel' + 1 => content.take 8192 :: fileChunksF fuel' (content.drop 8192)

/-- The bounded-chunk file read of `handle_download`: `f.read(8192)` until the
file is exhausted. Every iteration consumes at least one byte, so
`content.length` iterations suffice. -/
def fileChunks (content : List Nat) : List (List Nat) :=
  fileChunksF content.length content

/-! ## Server command handlers

Each handler takes the file system, the decoded request, and (for UPLOAD) the
payload bytes the peer will deliver; `now` stands for the wall clock used for
mtimes. It returns the new file system and the ordered event list. -/

/-- The Entry `handle_list` builds for child `name` of directory `p`: live
`is_dir`, `size` (`0` for directories), and `mtime`. The `none` arm never
fires for a listed child. -/
def entryOf (fs : FS) (p : AbsPath) (name : String) : Entry :=
  match fsFind fs (p ++ [name]) with
  | some (Node.file content mt) =>
      { name := name, is_dir := false, size := content.length, mtime := mt }
  | some (Node.dir mt) => { name := name, is_dir := true, size := 0, mtime := mt }
  | none => { name := name, is_dir := false, size := 0, mtime := 0 }

/-- Model of `PySideServer.handle_list`. -/
def handle_list (fs : FS) (req : Request) (now : Nat) : FS × List Ev :=
  match get_full_path req.path with
  | Except.error e => (fs, [Ev.send (errResp e)])
  | Except.ok full =>
      let p := resolveAbsStr full
      match (if (fsFind fs p).isSome then Except.ok fs else makedirs fs p now) with
      | Except.error e => (fs, [Ev.send (errResp e)])
      | Except.ok fs1 =>
          match fsFind fs1 p with
          | some (Node.dir _) =>
              (fs1, [Ev.send { status := "success",
                               items := some ((childNames fs1 p).map (entryOf fs1 p)),
                               current_path := some req.path }])
          | _ => (fs, [Ev.send (errResp "Not a directory")])

/-- Model of `PySideServer.handle_upload`. The order of events follows the
source: the missing-field check, then `get_full_path` on `path` (`filename`
is joined afterwards), the `ready` handshake, `open(filepath, "wb")`, the
receive loop, and completion or delete-and-error. The message of an `open`
failure stands in for the Python exception text. -/
def handle_upload (fs : FS) (req : Request) (input : List Nat) (now : Nat) :
    FS × List Ev :=
  if req.filename = "" ∨ req.size = none then
    (fs, [Ev.send (errResp "Missing info")])
  else
    match get_full_path req.path with
    | Except.error e => (fs, [Ev.send (errResp e)])
    | Except.ok full =>
        let size := req.size.getD 0
        let target := resolveAbsStr (osJoin full req.filename)
        match writeFileOpen fs target now with
        | Except.error e => (fs, [Ev.send readyResp, Ev.send (errResp e)])
        | Except.ok fs1 =>
            let out := recvLoop input size 0
            let fs2 := fsInsert fs1 target (Node.file out.1 now)
            if out.2.1 = size then
              (fs2, Ev.send readyResp ::
                      out.2.2.map (fun pr => Ev.recvReq pr.1 pr.2) ++
                      [Ev.send { status := "success", message := some "Upload complete" }])
            else
              let fs3 := if (fsFind fs2 target).isSome then fsErase fs2 target else fs2
              (fs3, Ev.send readyResp ::
                      out.2.2.map (fun pr => Ev.recvReq pr.1 pr.2) ++
                      [Ev.send { status := "error", message := some "Transfer incomplete" }])

/-- Model of `PySideServer.handle_download`: a regular file is answered with
the `{status, size}` handshake followed by its bytes in 8192-byte chunks;
anything else gets the not-found error and no payload. -/
def handle_download (fs : FS) (req : Request) : FS × List Ev :=
  match get_full_path req.path with
  | Except.error e => (fs, [Ev.send (errResp e)])
  | Except.ok full =>
      let target := resolveAbsStr (osJoin full req.filename)
      match fsFind fs target with
      | some (Node.file content _) =>
          (fs, Ev.send { status := "success", size := some content.length } ::
                (fileChunks content).map Ev.sendBytes)
      | _ => (fs, [Ev.send (errResp "File not found")])

/-- Model of `PySideServer.handle_delete`. -/
def handle_delete (fs : FS) (req : Request) : FS × List Ev :=
  match get_full_path req.path with
  | Except.error e => (fs, [Ev.send (errResp e)])
  | Except.ok full =>
      let target := resolveAbsStr (osJoin full req.filename)
      match fsFind fs target with
      | some (Node.dir _) =>
          (fsRemoveTree fs target,
           [Ev.send { status := "success", message := some ("Deleted " ++ req.filename) }])
      | some (Node.file _ _) =>
          (fsErase fs target,
           [Ev.send { status := "success", message := some ("Deleted " ++ req.filename) }])
      | none => (fs, [Ev.send (errResp "Not found")])

/-- Model of `PySideServer.handle_mkdir`. -/
def handle_mkdir (fs : FS) (req : Request) (now : Nat) : FS × List Ev :=
  match get_full_path req.path with
  | Except.error e => (fs, [Ev.send (errResp e)])
  | Except.ok full =>
      let newDir := resolveAbsStr (osJoin full req.dirname)
      match makedirs fs newDir now with
      | Except.ok fs1 =>
          (fs1, [Ev.send { status := "success",
                           message := some ("Folder " ++ req.dirname ++ " created") }])
      | Except.error e => (fs, [Ev.send (errResp e)])

/-! ## Server session loop -/

/-- One decoded line of client input: blank (skipped), malformed JSON, or a
command (an UPLOAD carries the payload bytes the peer sends after `ready`). -/
inductive InEvt
  | blank
  | malformed
  | cmd (r : Request) (payload : List Nat)

/-- Command dispatch of `handle_client`. -/
def dispatch (fs : FS) (r : Request) (payload : List Nat) (now : Nat) : FS × List Ev :=
  if r.command = "LIST" then handle_list fs r now
  else if r.command = "UPLOAD" then handle_upload fs r payload now
  else if r.command = "DOWNLOAD" then handle_download fs r
  else if r.command = "DELETE" then handle_delete fs r
  else if r.command = "MKDIR" then handle_mkdir fs r now
  else (fs, [Ev.send (errResp "Unknown command")])

/-- Model of the `handle_client` line loop: blank lines are skipped, commands
are dispatched, and a `json.JSONDecodeError` logs and executes `break` — the
remaining input is dropped. The Boolean records whether the session was torn
down by a malformed line. -/
def sessionRun (fs : FS) (evts : List InEvt) (now : Nat) : FS × List Ev × Bool :=
  match evts with
  | [] => (fs, [], false)
  | InEvt.blank :: rest => sessionRun fs rest now
  | InEvt.malformed :: _ => (fs, [], true)
  | InEvt.cmd r payload :: rest =>
      let out1 := dispatch fs r payload now
      let out2 := sessionRun out1.1 rest now
      (out2.1, out1.2 ++ out2.2.1, out2.2.2)

/-! ## Client network engine -/

/-- The fields of `NetworkWorker` the embedded operations touch. -/
structure ClientSt where
  connected : Bool := false
  server_ip : String := ""
  buffer : String := ""
  is_transferring : Bool := false
deriving DecidableEq

/-- Observable client events, in order: a request written to the socket, a
log notification, an error notification, or a connection-state change. The
`progress_updated` percentage signal is not modelled (it computes with
floats and no claim mentions it). -/
inductive CEv
  | sent (r : Request)
  | log (msg : String) (typ : String)
  | err (msg : String)
  | connChanged (b : Bool)
deriving DecidableEq

/-- The request a `CEv.sent` event carries, if it is one. -/
def sentReq : CEv → Option Request
  | CEv.sent r => some r
  | _ => none

/-- Model of `NetworkWorker.do_connect`; `connectOk` abstracts whether
`socket.connect` succeeded. On success the worker marks itself connected,
emits the state change and log, and immediately sends `LIST ""`; on failure
it clears `server_ip` and raises an error notification. -/
def do_connect (st : ClientSt) (connectOk : Bool) : ClientSt × List CEv :=
  if connectOk then
    ({ st with connected := true },
     [CEv.connChanged true,
      CEv.log ("Connected to " ++ st.server_ip) "success",
      CEv.sent { command := "LIST", path := "" }])
  else
    ({ st with server_ip := "" }, [CEv.err "Connection failed"])

/-- Model of `NetworkWorker.download_file`. `resp` is the decoded handshake
line (`none` abstracts an unreadable or undecodable line, which raises);
`input` is the byte list the socket will deliver before EOF. Returns the new
worker state, the local file written at `save_path` (`none` when it was never
opened), and the notification events. -/
def download_file (st : ClientSt) (filename targetPath : String)
    (resp : Option Response) (input : List Nat) :
    ClientSt × Option (List Nat) × List CEv :=
  if st.connected = false then (st, none, [])
  else
    let sentEv := CEv.sent { command := "DOWNLOAD", filename := filename, path := targetPath }
    let stDone := { st with buffer := "", is_transferring := false }
    match resp with
    | none => (stDone, none, [sentEv, CEv.err "Download failed: invalid handshake"])
    | some r =>
        if r.status = "success" then
          match r.size with
          | some size =>
              let out := recvLoop input size 0
              (stDone, some out.1,
               [sentEv, CEv.log ("Downloaded " ++ filename) "success"])
          | none => (stDone, some [], [sentEv, CEv.err "Download failed: no size"])
        else
          (stDone, none,
           [sentEv, CEv.err ("Download failed: " ++ r.message.getD "File not found")])

/-! ## Concrete fixtures -/

/-- A fresh server state: the chain of directories down to an empty storage
root, as `os.makedirs(self.storage, exist_ok=True)` leaves it at startup. -/
def fs0 : FS :=
  [(["home"], Node.dir 0),
   (["home", "user"], Node.dir 0),
   (["home", "user", "proyek"], Node.dir 0),
   (storageRoot, Node.dir 0)]

example : basePath = "/home/user/proyek/storage" := by decide
example : get_full_path "" = Except.ok "/home/user/proyek/storage" := by decide
example : get_full_path "docs" = Except.ok "/home/user/proyek/storage/docs" := by decide
example : get_full_path ".." = Except.error "Access denied: Path outside storage" := by
  decide
example : get_full_path "../storagezz" = Except.ok "/home/user/proyek/storagezz" := by
  decide
example : resolveAbsStr (osJoin basePath "../../evil") = ["home", "user", "evil"] := by
  decide

example :
    handle_list fs0 { command := "LIST", path := "" } 3 =
      (fs0, [Ev.send { status := "success", items := some [],
                       current_path := some "" }]) := by decide

example :
    (handle_list fs0 { command := "LIST", path := "../storagezz" } 5).2 =
      [Ev.send { status := "success", items := some [],
                 current_path := some "../storagezz" }] := by decide

example :
    fsFind (handle_list fs0 { command := "LIST", path := "../storagezz" } 5).1
        ["home", "user", "proyek", "storagezz"] = some (Node.dir 5) := by decide

example :
    (handle_mkdir fs0 { command := "MKDIR", path := "", dirname := "../../evil" } 7).2 =
      [Ev.send { status := "success", message := some "Folder ../../evil created" }] := by
  decide

example :
    fsFind (handle_mkdir fs0 { command := "MKDIR", path := "", dirname := "../../evil" } 7).1
        ["home", "user", "evil"] = some (Node.dir 7) := by decide

example :
    handle_download fs0 { command := "DOWNLOAD", path := "..", filename := "x" } =
      (fs0, [Ev.send (errResp "Access denied: Path outside storage")]) := by decide

example :
    sessionRun fs0 [InEvt.malformed, InEvt.cmd { command := "LIST", path := "" } []] 0 =
      (fs0, [], true) := by decide

example :
    sessionRun fs0 [InEvt.cmd { command := "LIST", path := "" } []] 0 =
      (fs0, [Ev.send { status := "success", items := some [], current_path := some "" }],
       false) := by decide

example :
    (handle_upload fs0
      { command := "UPLOAD", path := "", filename := "a.txt", size := some 3 }
      [10, 20, 30] 9).2 =
      [Ev.send readyResp, Ev.recvReq 3 3,
       Ev.send { status := "success", message := some "Upload complete" }] := by decide

example :
    fsFind (handle_upload fs0
      { command := "UPLOAD", path := "", filename := "a.txt", size := some 3 }
      [10, 20, 30] 9).1 (storageRoot ++ ["a.txt"]) = some (Node.file [10, 20, 30] 9) := by
  decide

example :
    (handle_upload fs0
      { command := "UPLOAD", path := "", filename := "a.txt", size := some 5 }
      [10, 20] 9).2 =
      [Ev.send readyResp, Ev.recvReq 5 2, Ev.recvReq 3 0,
       Ev.send { status := "error", message := some "Transfer incomplete" }] := by decide

example :
    fsFind (handle_upload fs0
      { command := "UPLOAD", path := "", filename := "a.txt", size := some 5 }
      [10, 20] 9).1 (storageRoot ++ ["a.txt"]) = none := by decide

/-! ## Receive-loop lemmas -/

lemma recvLoopF_spec :
    ∀ (fuel : Nat) (input : List Nat) (size received : Nat),
      size - received ≤ fuel →
      (recvLoopF fuel input size received).1 = input.take (size - received) ∧
      (recvLoopF fuel input size received).2.1 =
        received + min (size - received) input.length ∧
      ∀ pr ∈ (recvLoopF fuel input size received).2.2, pr.1 ≤ 8192 := by
  intro fuel
  induction fuel with
  | zero =>
      intro input size received hfuel
      have h : ¬ received < size := by omega
      have hz : size - received = 0 := by omega
      simp [recvLoopF, h, hz]
  | succ fuel ih =>
      intro input size received hfuel
      by_cases h : received < size
      · have hreq1 : 1 ≤ min 8192 (size - received) := by omega
        by_cases hc : input.take (min 8192 (size - received)) = []
        · have hinput : input = [] := by
            rcases List.take_eq_nil_iff.mp hc with h0 | h0
            · omega
            · exact h0
          subst hinput
          simp [recvLoopF, h, hc]
        · have hlen1 : 0 < (input.take (min 8192 (size - received))).length :=
            List.length_pos.mpr hc
          have hlen : (input.take (min 8192 (size - received))).length =
              min (min 8192 (size - received)) input.length :=
            List.length_take _ _
          have hfuel' : size -
              (received + (input.take (min 8192 (size - received))).length) ≤ fuel := by
            omega
          obtain ⟨h1, h2, h3⟩ := ih (input.drop (min 8192 (size - received))) size
            (received + (input.take (min 8192 (size - received))).length) hfuel'
          simp only [recvLoopF, if_pos h, hc, if_neg, ite_false]
          refine ⟨?_, ?_, ?_⟩
          · show input.take (min 8192 (size - received)) ++
              (recvLoopF fuel (input.drop (min 8192 (size - received))) size
                (received + (input.take (min 8192 (size - received))).length)).1 =
              input.take (size - received)
            rw [h1]
            by_cases hbig : min 8192 (size - received) ≤ input.length
            · have hl : (input.take (min 8192 (size - received))).length =
                  min 8192 (size - received) := by omega
              rw [hl]
              have hsum : size - received =
                  min 8192 (size - received) +
                    (size - (received + min 8192 (size - received))) := by omega
              calc input.take (min 8192 (size - received)) ++
                    (input.drop (min 8192 (size - received))).take
                      (size - (received + min 8192 (size - received)))
                  = input.take (min 8192 (size - received) +
                      (size - (received + min 8192 (size - received)))) :=
                    (List.take_add input _ _).symm
                _ = input.take (size - received) := by rw [← hsum]
            · have hl : (input.take (min 8192 (size - received))).length =
                  input.length := by omega
              have htk : input.take (min 8192 (size - received)) = input :=
                List.take_of_length_le (by omega)
              have hdr : input.drop (min 8192 (size - received)) = [] :=
                List.drop_eq_nil_of_le (by omega)
              rw [htk, hdr]
              have : input.take (size - received) = input :=
                List.take_of_length_le (by omega)
              simp [this]
          · show (recvLoopF fuel (input.drop (min 8192 (size - received))) size
                (received + (input.take (min 8192 (size - received))).length)).2.1 =
              received + min (size - received) input.length
            rw [h2]
            rw [List.length_drop]
            omega
          · intro pr hpr
            show pr.1 ≤ 8192
            rcases List.mem_cons.mp hpr with hh | hh
            · rw [hh]; omega
            · exact h3 pr hh
      · simp [recvLoopF, h]
        omega

lemma recvLoop_bytes (input : List Nat) (size : Nat) :
    (recvLoop input size 0).1 = input.take size := by
  have := (recvLoopF_spec (size - 0) input size 0 (Nat.le_refl _)).1
  simpa [recvLoop] using this

lemma recvLoop_count (input : List Nat) (size : Nat) :
    (recvLoop input size 0).2.1 = min size input.length := by
  have := (recvLoopF_spec (size - 0) input size 0 (Nat.le_refl _)).2.1
  simpa [recvLoop] using this

lemma recvLoop_reqs_le (input : List Nat) (size : Nat) :
    ∀ pr ∈ (recvLoop input size 0).2.2, pr.1 ≤ 8192 := by
  have := (recvLoopF_spec (size - 0) input size 0 (Nat.le_refl _)).2.2
  simpa [recvLoop] using this

/-! ## File-chunk lemmas -/

lemma fileChunksF_spec :
    ∀ (fuel : Nat) (content : List Nat), content.length ≤ fuel →
      (fileChunksF fuel content).flatten = content ∧
      ∀ b ∈ fileChunksF fuel content, b.length ≤ 8192 ∧ b ≠ [] := by
  intro fuel
  induction fuel with
  | zero =>
      intro content hfuel
      have : content = [] := List.eq_nil_of_length_eq_zero (by omega)
      subst this
      simp [fileChunksF]
  | succ fuel ih =>
      intro content hfuel
      by_cases hc : content = []
      · subst hc; simp [fileChunksF]
      · have hpos : 0 < content.length := List.length_pos.mpr hc
        have hfuel' : (content.drop 8192).length ≤ fuel := by
          rw [List.length_drop]; omega
        obtain ⟨h1, h2⟩ := ih (content.drop 8192) hfuel'
        simp only [fileChunksF, hc, ite_false]
        constructor
        · rw [List.flatten_cons, h1, List.take_append_drop]
        · intro b hb
          rcases List.mem_cons.mp hb with hh | hh
          · subst hh
            refine ⟨by rw [List.length_take]; omega, ?_⟩
            intro hnil
            rcases List.take_eq_nil_iff.mp hnil with h0 | h0
            · omega
            · exact hc h0
          · exact h2 b hh

lemma fileChunks_flatten (content : List Nat) :
    (fileChunks content).flatten = content :=
  (fileChunksF_spec content.length content (Nat.le_refl _)).1

lemma fileChunks_le (content : List Nat) :
    ∀ b ∈ fileChunks content, b.length ≤ 8192 :=
  fun b hb => ((fileChunksF_spec content.length content (Nat.le_refl _)).2 b hb).1

/-! ## File-system lemmas -/

lemma fsFind_erase_self (fs : FS) (p : AbsPath) : fsFind (fsErase fs p) p = none := by
  induction fs with
  | nil => rfl
  | cons e rest ih =>
      by_cases h : e.1 = p
      · simp [fsErase, h, ih]
      · simp [fsErase, fsFind, h, ih]

lemma fsFind_erase_ne (fs : FS) (p q : AbsPath) (h : q ≠ p) :
    fsFind (fsErase fs p) q = fsFind fs q := by
  induction fs with
  | nil => rfl
  | cons e rest ih =>
      show fsFind (if e.1 = p then fsErase rest p else e :: fsErase rest p) q =
        (if e.1 = q then some e.2 else fsFind rest q)
      by_cases he : e.1 = p
      · rw [if_pos he, ih, if_neg (by rw [he]; exact fun hh => h hh.symm)]
      · rw [if_neg he]
        show (if e.1 = q then some e.2 else fsFind (fsErase rest p) q) =
          (if e.1 = q then some e.2 else fsFind rest q)
        by_cases heq : e.1 = q
        · rw [if_pos heq, if_pos heq]
        · rw [if_neg heq, if_neg heq, ih]

lemma fsFind_insert_self (fs : FS) (p : AbsPath) (n : Node) :
    fsFind (fsInsert fs p n) p = some n := by
  simp [fsInsert, fsFind]

lemma fsFind_insert_ne (fs : FS) (p q : AbsPath) (n : Node) (h : q ≠ p) :
    fsFind (fsInsert fs p n) q = fsFind fs q := by
  have : p ≠ q := fun hh => h hh.symm
  simp [fsInsert, fsFind, this, fsFind_erase_ne fs p q h]

lemma fsFind_eq_none_iff (fs : FS) (p : AbsPath) :
    fsFind fs p = none ↔ p ∉ fs.map Prod.fst := by
  induction fs with
  | nil => simp [fsFind]
  | cons e rest ih =>
      show (if e.1 = p then some e.2 else fsFind rest p) = none ↔
        p ∉ (e :: rest).map Prod.fst
      rw [List.map_cons]
      by_cases h : e.1 = p
      · rw [if_pos h]
        constructor
        · intro hh; exact absurd hh (by simp)
        · intro hmem
          exfalso
          exact hmem (by rw [← h]; exact List.mem_cons_self _ _)
      · rw [if_neg h, ih]
        constructor
        · intro hnm hmem
          rcases List.mem_cons.mp hmem with hh | hh
          · exact h hh.symm
          · exact hnm hh
        · intro hnm hmem
          exact hnm (List.mem_cons_of_mem _ hmem)

lemma isDir_insert_dir (fs : FS) (p q : AbsPath) (n : Nat) (h : isDir fs q = true) :
    isDir (fsInsert fs p (Node.dir n)) q = true := by
  by_cases hpq : q = p
  · subst hpq
    simp [isDir, fsFind_insert_self]
  · simp [isDir, fsFind_insert_ne fs p q _ hpq]
    exact h

lemma childName_eq_some (p q : AbsPath) (n : String) :
    childName p q = some n ↔ q = p ++ [n] := by
  rcases q.eq_nil_or_concat' with h | ⟨L, b, h⟩
  · subst h
    constructor
    · intro hcn
      exact absurd hcn (by simp [childName])
    · intro hh
      exfalso
      have hl := congrArg List.length hh
      simp at hl
  · subst h
    simp [childName, List.getLast?_concat, List.dropLast_concat]
    constructor
    · rintro ⟨h1, h2⟩
      rw [h1, h2]
    · intro hh
      have h1 : L = p := by
        have := congrArg List.dropLast hh
        simpa [List.dropLast_concat] using this
      have h2 : b = n := by
        have := congrArg List.getLast? hh
        simpa [List.getLast?_concat] using this
      exact ⟨h1, h2⟩

lemma mem_childNames (fs : FS) (p : AbsPath) (n : String) :
    n ∈ childNames fs p ↔ (p ++ [n]) ∈ fs.map Prod.fst := by
  simp only [childNames, List.mem_filterMap]
  constructor
  · rintro ⟨q, hq, hcn⟩
    rw [(childName_eq_some p q n).mp hcn] at hq
    exact hq
  · intro hmem
    exact ⟨p ++ [n], hmem, (childName_eq_some p (p ++ [n]) n).mpr rfl⟩

/-- Keys of the file system are pairwise distinct. -/
def keysNodup (fs : FS) : Prop := (fs.map Prod.fst).Nodup

lemma fsErase_subkeys (fs : FS) (p : AbsPath) :
    List.Sublist ((fsErase fs p).map Prod.fst) (fs.map Prod.fst) := by
  induction fs with
  | nil => exact List.Sublist.refl _
  | cons e rest ih =>
      show List.Sublist
        ((if e.1 = p then fsErase rest p else e :: fsErase rest p).map Prod.fst)
        (e.1 :: rest.map Prod.fst)
      by_cases h : e.1 = p
      · rw [if_pos h]
        exact ih.trans (List.sublist_cons_self _ _)
      · rw [if_neg h, List.map_cons]
        exact List.Sublist.cons₂ e.1 ih

lemma keysNodup_insert (fs : FS) (p : AbsPath) (n : Node) (h : keysNodup fs) :
    keysNodup (fsInsert fs p n) := by
  unfold keysNodup at *
  simp only [fsInsert, List.map_cons, List.nodup_cons]
  refine ⟨?_, (fsErase_subkeys fs p).nodup h⟩
  intro hp
  have := (fsFind_eq_none_iff (fsErase fs p) p).mp (fsFind_erase_self fs p)
  exact this hp

lemma childNames_nodup (fs : FS) (p : AbsPath) (h : keysNodup fs) :
    (childNames fs p).Nodup := by
  unfold childNames
  apply List.Nodup.filterMap _ h
  intro q1 q2 n hn1 hn2
  rw [Option.mem_def] at hn1 hn2
  rw [(childName_eq_some p q1 n).mp hn1, (childName_eq_some p q2 n).mp hn2]

/-! ## makedirs lemmas -/

lemma foldl_mkdirStep_error (qs : List AbsPath) (now : Nat) (e : String) :
    qs.foldl (mkdirStep now) (Except.error e) = Except.error e := by
  induction qs with
  | nil => rfl
  | cons q rest ih => simpa [mkdirStep] using ih

/-- Stepping `makedirs` preserves any property that survives inserting a
fresh directory. -/
lemma foldl_mkdirStep_preserves (P : FS → Prop)
    (hP : ∀ fs q n, P fs → P (fsInsert fs q (Node.dir n))) (now : Nat) :
    ∀ (qs : List AbsPath) (fs fs1 : FS),
      qs.foldl (mkdirStep now) (Except.ok fs) = Except.ok fs1 → P fs → P fs1 := by
  intro qs
  induction qs with
  | nil =>
      intro fs fs1 hfold hp
      simp only [List.foldl_nil] at hfold
      cases hfold
      exact hp
  | cons q rest ih =>
      intro fs fs1 hfold hp
      simp only [List.foldl_cons] at hfold
      cases hq : fsFind fs q with
      | none =>
          rw [show mkdirStep now (Except.ok fs) q =
                Except.ok (fsInsert fs q (Node.dir now)) by simp [mkdirStep, hq]] at hfold
          exact ih _ _ hfold (hP fs q now hp)
      | some node =>
          cases node with
          | dir mt =>
              rw [show mkdirStep now (Except.ok fs) q = Except.ok fs by
                simp [mkdirStep, hq]] at hfold
              exact ih _ _ hfold hp
          | file c mt =>
              rw [show mkdirStep now (Except.ok fs) q =
                    Except.error "Not a directory" by simp [mkdirStep, hq]] at hfold
              rw [foldl_mkdirStep_error] at hfold
              cases hfold

lemma mkdirStep_establishes (fs fs1 : FS) (q : AbsPath) (now : Nat)
    (h : mkdirStep now (Except.ok fs) q = Except.ok fs1) : isDir fs1 q = true := by
  cases hq : fsFind fs q with
  | none =>
      rw [show mkdirStep now (Except.ok fs) q =
            Except.ok (fsInsert fs q (Node.dir now)) by simp [mkdirStep, hq]] at h
      cases h
      simp [isDir, fsFind_insert_self]
  | some node =>
      cases node with
      | dir mt =>
          rw [show mkdirStep now (Except.ok fs) q = Except.ok fs by
            simp [mkdirStep, hq]] at h
          cases h
          simp [isDir, hq]
      | file c mt =>
          rw [show mkdirStep now (Except.ok fs) q =
                Except.error "Not a directory" by simp [mkdirStep, hq]] at h
          cases h

lemma foldl_mkdirStep_mem (now : Nat) :
    ∀ (qs : List AbsPath) (fs fs1 : FS) (q : AbsPath), q ∈ qs →
      qs.foldl (mkdirStep now) (Except.ok fs) = Except.ok fs1 → isDir fs1 q = true := by
  intro qs
  induction qs with
  | nil => intro fs fs1 q hq; cases hq
  | cons q' rest ih =>
      intro fs fs1 q hq hfold
      simp only [List.foldl_cons] at hfold
      cases hstep : mkdirStep now (Except.ok fs) q' with
      | error e =>
          rw [hstep, foldl_mkdirStep_error] at hfold
          cases hfold
      | ok fsMid =>
          rw [hstep] at hfold
          rcases List.mem_cons.mp hq with hh | hh
          · subst hh
            have hmid : isDir fsMid q = true := mkdirStep_establishes fs fsMid q now hstep
            exact foldl_mkdirStep_preserves (fun fs => isDir fs q = true)
              (fun fs qq n hp => isDir_insert_dir fs qq q n hp) now rest fsMid fs1 hfold hmid
          · exact ih fsMid fs1 q hh hfold

lemma makedirs_isDir (fs fs1 : FS) (p : AbsPath) (now : Nat) (hp : p ≠ [])
    (h : makedirs fs p now = Except.ok fs1) : isDir fs1 p = true := by
  have hmem : p ∈ mkdirPrefixes p := by
    have hlen : 0 < p.length := List.length_pos.mpr hp
    simp only [mkdirPrefixes, List.mem_map, List.mem_range]
    exact ⟨p.length - 1, by omega, by
      have : p.length - 1 + 1 = p.length := by omega
      rw [this, List.take_length]⟩
  exact foldl_mkdirStep_mem now (mkdirPrefixes p) fs fs1 p hmem h

lemma makedirs_keysNodup (fs fs1 : FS) (p : AbsPath) (now : Nat)
    (h : makedirs fs p now = Except.ok fs1) (hn : keysNodup fs) : keysNodup fs1 :=
  foldl_mkdirStep_preserves keysNodup
    (fun fs q n hp => keysNodup_insert fs q (Node.dir n) hp) now (mkdirPrefixes p)
    fs fs1 h hn

/-! ## Sandbox-check helper lemmas -/

lemma get_full_path_err (rel : String)
    (h : strStartsWith (renderAbs (resolveRel rel)) basePath = false) :
    get_full_path rel = Except.error "Access denied: Path outside storage" := by
  simp [get_full_path, h]

lemma handle_list_pathError (fs : FS) (req : Request) (now : Nat) (e : String)
    (h : get_full_path req.path = Except.error e) :
    handle_list fs req now = (fs, [Ev.send (errResp e)]) := by
  simp [handle_list, h]

lemma handle_download_pathError (fs : FS) (req : Request) (e : String)
    (h : get_full_path req.path = Except.error e) :
    handle_download fs req = (fs, [Ev.send (errResp e)]) := by
  simp [handle_download, h]

lemma handle_delete_pathError (fs : FS) (req : Request) (e : String)
    (h : get_full_path req.path = Except.error e) :
    handle_delete fs req = (fs, [Ev.send (errResp e)]) := by
  simp [handle_delete, h]

lemma handle_mkdir_pathError (fs : FS) (req : Request) (now : Nat) (e : String)
    (h : get_full_path req.path = Except.error e) :
    handle_mkdir fs req now = (fs, [Ev.send (errResp e)]) := by
  simp [handle_mkdir, h]

lemma handle_upload_pathError (fs : FS) (req : Request) (input : List Nat) (now : Nat)
    (e : String) (h : get_full_path req.path = Except.error e) :
    (handle_upload fs req input now).1 = fs ∧
    ((handle_upload fs req input now).2 = [Ev.send (errResp e)] ∨
     (handle_upload fs req input now).2 = [Ev.send (errResp "Missing info")]) := by
  by_cases hm : req.filename = "" ∨ req.size = none
  · simp [handle_upload, hm]
  · simp [handle_upload, hm, h]

lemma sentPayload_cons_send (r : Response) (evs : List Ev) :
    sentPayload (Ev.send r :: evs) = sentPayload evs := by
  simp [sentPayload]

lemma sentPayload_chunks (bs : List (List Nat)) :
    sentPayload (bs.map Ev.sendBytes) = bs.flatten := by
  unfold sentPayload
  rw [List.filterMap_map]
  have : List.filterMap (fun b => some b)  bs = bs := by
    induction bs with
    | nil => rfl
    | cons b rest ih => simp [List.filterMap, ih]
  rw [show ((fun e =>
      match e with
      | Ev.sendBytes b => some b
      | _ => none) ∘ Ev.sendBytes) = fun b => some b from rfl]
  rw [this]

lemma getLast?_cons_concat {α : Type} (a b : α) (l : List α) :
    (a :: (l ++ [b])).getLast? = some b := by
  rw [← List.cons_append]
  exact List.getLast?_concat _

/-! ## Claim theorems -/

/-- Claim C1 (code bug). The sandbox resolution-and-prefix check is applied
only to the `path` field; `filename` and `dirname` are joined to the checked
directory afterwards, unchecked. Evaluated at the failing inputs: MKDIR with
`dirname = "../../evil"` resolves to `/home/user/evil`, outside the storage
root, yet the handler creates that directory and replies success; UPLOAD with
`filename = "../../pwn.txt"` likewise writes the file outside the root and
replies success. -/
theorem filename_dirname_bypass_sandbox :
    storageRoot.isPrefixOf (resolveAbsStr (osJoin basePath "../../evil")) = false ∧
    (handle_mkdir fs0 { command := "MKDIR", path := "", dirname := "../../evil" } 7).2 =
      [Ev.send { status := "success", message := some "Folder ../../evil created" }] ∧
    fsFind (handle_mkdir fs0 { command := "MKDIR", path := "", dirname := "../../evil" } 7).1
      ["home", "user", "evil"] = some (Node.dir 7) ∧
    storageRoot.isPrefixOf (resolveAbsStr (osJoin basePath "../../pwn.txt")) = false ∧
    fsFind (handle_upload fs0
        { command := "UPLOAD", path := "", filename := "../../pwn.txt", size := some 1 }
        [42] 9).1 ["home", "user", "pwn.txt"] = some (Node.file [42] 9) ∧
    (handle_upload fs0
        { command := "UPLOAD", path := "", filename := "../../pwn.txt", size := some 1 }
        [42] 9).2.getLast? =
      some (Ev.send { status := "success", message := some "Upload complete" }) := by
  decide

/-- Claim C2 (counterexample). The relative path `"../storagezz"` contains a
`..` segment and canonicalizes to `/home/user/proyek/storagezz`, a sibling of
the storage root and hence outside it (the root's segments are not a prefix
of the resolution) — yet because the string `/home/user/proyek/storage` is a
character prefix of `/home/user/proyek/storagezz`, `get_full_path` accepts
it, and a LIST with this path mutates the file system (creates the sibling
directory outside the root) and replies success instead of failing. -/
theorem sandbox_sibling_escape_counterexample :
    hasDotDot "../storagezz" = true ∧
    storageRoot.isPrefixOf (resolveRel "../storagezz") = false ∧
    get_full_path "../storagezz" = Except.ok "/home/user/proyek/storagezz" ∧
    (handle_list fs0 { command := "LIST", path := "../storagezz" } 5).2 =
      [Ev.send { status := "success", items := some [],
                 current_path := some "../storagezz" }] ∧
    fsFind (handle_list fs0 { command := "LIST", path := "../storagezz" } 5).1
      ["home", "user", "proyek", "storagezz"] = some (Node.dir 5) := by
  decide

/-- Claim C2 (amended). Every relative path whose canonicalized resolution
does not have the canonical root string as a character prefix fails with
`AccessDenied`: `get_full_path` raises, every command handler leaves the file
system unchanged, and the only reply is a status-error message. (Paths whose
resolution merely extends the root string — siblings such as
`"../storagezz"` — pass the check; see the counterexample.) -/
theorem sandbox_rejects_nonprefixed_paths (fs : FS) (req : Request)
    (input : List Nat) (now : Nat)
    (h : strStartsWith (renderAbs (resolveRel req.path)) basePath = false) :
    get_full_path req.path = Except.error "Access denied: Path outside storage" ∧
    handle_list fs req now =
      (fs, [Ev.send (errResp "Access denied: Path outside storage")]) ∧
    handle_download fs req =
      (fs, [Ev.send (errResp "Access denied: Path outside storage")]) ∧
    handle_delete fs req =
      (fs, [Ev.send (errResp "Access denied: Path outside storage")]) ∧
    handle_mkdir fs req now =
      (fs, [Ev.send (errResp "Access denied: Path outside storage")]) ∧
    (handle_upload fs req input now).1 = fs ∧
    ((handle_upload fs req input now).2 =
        [Ev.send (errResp "Access denied: Path outside storage")] ∨
     (handle_upload fs req input now).2 = [Ev.send (errResp "Missing info")]) := by
  have he := get_full_path_err req.path h
  obtain ⟨hu1, hu2⟩ := handle_upload_pathError fs req input now _ he
  exact ⟨he, handle_list_pathError fs req now _ he,
    handle_download_pathError fs req _ he, handle_delete_pathError fs req _ he,
    handle_mkdir_pathError fs req now _ he, hu1, hu2⟩

/-- Witness for the amended C2 theorem at the concrete path `"../../x"`. -/
theorem sandbox_rejects_nonprefixed_paths_witness :
    strStartsWith (renderAbs (resolveRel "../../x")) basePath = false ∧
    handle_delete fs0 { command := "DELETE", path := "../../x", filename := "f" } =
      (fs0, [Ev.send (errResp "Access denied: Path outside storage")]) :=
  ⟨by decide,
   (sandbox_rejects_nonprefixed_paths fs0
      { command := "DELETE", path := "../../x", filename := "f" } [] 0
      (by decide)).2.2.2.1⟩

/-- Claim C3 (counterexample). A malformed line followed by a well-formed
LIST yields no reply at all and the session is torn down — the LIST is never
processed — although the same LIST alone is answered with success. This
refutes the claim that the connection is kept alive across a malformed
line. -/
theorem malformed_line_closes_session_counterexample :
    sessionRun fs0 [InEvt.malformed, InEvt.cmd { command := "LIST", path := "" } []] 0 =
      (fs0, [], true) ∧
    sessionRun fs0 [InEvt.cmd { command := "LIST", path := "" } []] 0 =
      (fs0, [Ev.send { status := "success", items := some [], current_path := some "" }],
       false) := by
  decide

/-- Claim C3 (amended). A received line that fails to decode as JSON tears
the session down: the `json.JSONDecodeError` handler logs and executes
`break`, so no reply is produced, no command after the malformed line is
processed (whatever the remaining input), and the file system is left
untouched by the malformed line. -/
theorem malformed_line_tears_down_session (fs : FS) (rest : List InEvt) (now : Nat) :
    sessionRun fs (InEvt.malformed :: rest) now = (fs, [], true) := rfl

/-- Claim C5 (counterexample). A DOWNLOAD whose path escapes the sandbox is
answered with the message `"Access denied: Path outside storage"`, while a
missing in-sandbox file is answered with `"File not found"` — the two replies
differ, so the protocol-level reply does reveal that the cause was a sandbox
escape. -/
theorem access_denied_message_distinguishable_counterexample :
    (handle_download fs0 { command := "DOWNLOAD", path := "..", filename := "x" }).2 =
      [Ev.send (errResp "Access denied: Path outside storage")] ∧
    (handle_download fs0 { command := "DOWNLOAD", path := "", filename := "x" }).2 =
      [Ev.send (errResp "File not found")] ∧
    errResp "Access denied: Path outside storage" ≠ errResp "File not found" := by
  decide

/-- Claim C5 (amended). A request whose path resolution escapes the sandbox
is answered with a status-error reply, but its message is the fixed string
`"Access denied: Path outside storage"` (`str(e)` of the raised exception),
which is distinguishable from the not-found reply `"File not found"`. -/
theorem sandbox_escape_reply_message (fs : FS) (req : Request)
    (h : strStartsWith (renderAbs (resolveRel req.path)) basePath = false) :
    handle_download fs req =
      (fs, [Ev.send (errResp "Access denied: Path outside storage")]) ∧
    errResp "Access denied: Path outside storage" ≠ errResp "File not found" := by
  refine ⟨handle_download_pathError fs req _ (get_full_path_err req.path h), ?_⟩
  decide

/-- Witness for the amended C5 theorem at the concrete path `".."`. -/
theorem sandbox_escape_reply_message_witness :
    strStartsWith (renderAbs (resolveRel "..")) basePath = false ∧
    handle_download fs0 { command := "DOWNLOAD", path := "..", filename := "y" } =
      (fs0, [Ev.send (errResp "Access denied: Path outside storage")]) :=
  ⟨by decide,
   (sandbox_escape_reply_message fs0
      { command := "DOWNLOAD", path := "..", filename := "y" } (by decide)).1⟩

/-- Claim C6. For every DOWNLOAD request whose path passes the sandbox check:
if the resolved target is a regular file, the reply is the
`{status:"success", size}` handshake sent before the payload, followed by
exactly the file's bytes in chunks of at most 8192 bytes; if the target is
missing or is a directory, the reply is `{status:"error", message:"File not
found"}` and no payload byte is sent. -/
theorem download_spec (fs : FS) (req : Request) (full : String) (target : AbsPath)
    (hfull : get_full_path req.path = Except.ok full)
    (htgt : resolveAbsStr (osJoin full req.filename) = target) :
    (∀ content mt, fsFind fs target = some (Node.file content mt) →
        handle_download fs req =
          (fs, Ev.send { status := "success", size := some content.length } ::
               (fileChunks content).map Ev.sendBytes) ∧
        sentPayload (handle_download fs req).2 = content ∧
        ∀ b ∈ fileChunks content, b.length ≤ 8192) ∧
    ((fsFind fs target = none ∨ ∃ mt, fsFind fs target = some (Node.dir mt)) →
        handle_download fs req = (fs, [Ev.send (errResp "File not found")]) ∧
        sentPayload (handle_download fs req).2 = []) := by
  constructor
  · intro content mt hfind
    have heval : handle_download fs req =
        (fs, Ev.send { status := "success", size := some content.length } ::
             (fileChunks content).map Ev.sendBytes) := by
      simp [handle_download, hfull, htgt, hfind]
    refine ⟨heval, ?_, fileChunks_le content⟩
    rw [heval]
    show sentPayload (Ev.send _ :: (fileChunks content).map Ev.sendBytes) = content
    rw [sentPayload_cons_send, sentPayload_chunks, fileChunks_flatten]
  · intro hcase
    have heval : handle_download fs req = (fs, [Ev.send (errResp "File not found")]) := by
      rcases hcase with hnone | ⟨mt, hdir⟩
      · simp [handle_download, hfull, htgt, hnone]
      · simp [handle_download, hfull, htgt, hdir]
    refine ⟨heval, ?_⟩
    rw [heval]
    rfl

/-- Witness for the C6 theorem: a two-byte file is streamed after the
handshake, and a directory target is answered with the not-found error. -/
theorem download_spec_witness :
    get_full_path "" = Except.ok basePath ∧
    resolveAbsStr (osJoin basePath "b.bin") = storageRoot ++ ["b.bin"] ∧
    handle_download (fsInsert fs0 (storageRoot ++ ["b.bin"]) (Node.file [7, 8] 4))
        { command := "DOWNLOAD", path := "", filename := "b.bin" } =
      (fsInsert fs0 (storageRoot ++ ["b.bin"]) (Node.file [7, 8] 4),
       [Ev.send { status := "success", size := some 2 }, Ev.sendBytes [7, 8]]) ∧
    handle_download fs0 { command := "DOWNLOAD", path := "", filename := "" } =
      (fs0, [Ev.send (errResp "File not found")]) := by
  refine ⟨by decide, by decide, ?_, ?_⟩
  · have h := ((download_spec (fsInsert fs0 (storageRoot ++ ["b.bin"]) (Node.file [7, 8] 4))
      { command := "DOWNLOAD", path := "", filename := "b.bin" } basePath
      (storageRoot ++ ["b.bin"]) (by decide) (by decide)).1 [7, 8] 4 (by decide)).1
    rw [h]
    decide
  · have h := ((download_spec fs0 { command := "DOWNLOAD", path := "", filename := "" }
      basePath storageRoot (by decide) (by decide)).2 (Or.inr ⟨0, by decide⟩)).1
    rw [h]

/-- Claim C7. For every LIST whose path passes the sandbox check and whose
resolved directory either exists as a directory or does not exist and can be
created: afterwards the directory exists on disk; the reply is a single
success response carrying one Entry (via `entryOf`: name, is_dir, size,
mtime) per immediate child — pairwise distinct when the file-system keys
are — and `current_path` echoes the original unsandboxed relative path. -/
theorem list_spec (fs : FS) (req : Request) (now : Nat) (full : String) (p : AbsPath)
    (hfull : get_full_path req.path = Except.ok full)
    (hp : resolveAbsStr full = p)
    (hnodup : keysNodup fs)
    (hcase : (∃ fs1, fsFind fs p = none ∧ p ≠ [] ∧ makedirs fs p now = Except.ok fs1) ∨
             (∃ mt, fsFind fs p = some (Node.dir mt))) :
    isDir (handle_list fs req now).1 p = true ∧
    (handle_list fs req now).2 =
      [Ev.send { status := "success",
                 items := some ((childNames (handle_list fs req now).1 p).map
                   (entryOf (handle_list fs req now).1 p)),
                 current_path := some req.path }] ∧
    (childNames (handle_list fs req now).1 p).Nodup := by
  rcases hcase with ⟨fs1, hnone, hpne, hmk⟩ | ⟨mt, hdir⟩
  · have hisdir : isDir fs1 p = true := makedirs_isDir fs fs1 p now hpne hmk
    have hfind1 : ∃ mt1, fsFind fs1 p = some (Node.dir mt1) := by
      unfold isDir at hisdir
      cases hfs : fsFind fs1 p with
      | none => rw [hfs] at hisdir; cases hisdir
      | some node =>
          cases node with
          | file c m => rw [hfs] at hisdir; cases hisdir
          | dir m => exact ⟨m, rfl⟩
    obtain ⟨mt1, hfind1⟩ := hfind1
    have heval : handle_list fs req now =
        (fs1, [Ev.send { status := "success",
                         items := some ((childNames fs1 p).map (entryOf fs1 p)),
                         current_path := some req.path }]) := by
      simp [handle_list, hfull, hp, hnone, hmk, hfind1]
    rw [heval]
    exact ⟨hisdir, rfl,
      childNames_nodup fs1 p (makedirs_keysNodup fs fs1 p now hmk hnodup)⟩
  · have heval : handle_list fs req now =
        (fs, [Ev.send { status := "success",
                        items := some ((childNames fs p).map (entryOf fs p)),
                        current_path := some req.path }]) := by
      simp [handle_list, hfull, hp, hdir]
    rw [heval]
    exact ⟨by simp [isDir, hdir], rfl, childNames_nodup fs p hnodup⟩

/-- Witness for the C7 theorem: the fresh-empty-root scenario. LIST with path
`""` on the pristine state replies `{status:"success", items:[],
current_path:""}` and the storage root exists on disk afterwards. -/
theorem list_spec_witness :
    get_full_path "" = Except.ok basePath ∧
    (handle_list fs0 { command := "LIST", path := "" } 3).2 =
      [Ev.send { status := "success", items := some [], current_path := some "" }] ∧
    isDir (handle_list fs0 { command := "LIST", path := "" } 3).1 storageRoot = true := by
  have h := list_spec fs0 { command := "LIST", path := "" } 3 basePath storageRoot
    (by decide) (by decide) (by show (fs0.map Prod.fst).Nodup; decide)
    (Or.inr ⟨0, by decide⟩)
  refine ⟨by decide, ?_, h.1⟩
  rw [h.2.1]
  decide

/-- Claim C4. For every UPLOAD with declared size `S` (fields present, path
in-sandbox, target openable): the `ready` handshake is the first event, before
any payload read; every `recv` requests at most 8192 bytes; if the socket
yields `k < S` bytes before EOF, the partial target file is deleted — it is
absent from the file system and from the target directory's child listing
(what a subsequent LIST enumerates) — and the final reply is the
transfer-incomplete error; if at least `S` bytes are available, the file holds
exactly the first `S` bytes and the final reply is success. -/
theorem upload_protocol_spec (fs : FS) (req : Request) (input : List Nat) (now : Nat)
    (S : Nat) (full : String) (tdir : AbsPath) (tname : String)
    (hfn : req.filename ≠ "")
    (hsz : req.size = some S)
    (hfull : get_full_path req.path = Except.ok full)
    (htgt : resolveAbsStr (osJoin full req.filename) = tdir ++ [tname])
    (hnotdir : isDir fs (tdir ++ [tname]) = false)
    (hparent : isDir fs tdir = true) :
    (handle_upload fs req input now).2.head? = some (Ev.send readyResp) ∧
    (∀ r g, Ev.recvReq r g ∈ (handle_upload fs req input now).2 → r ≤ 8192) ∧
    (input.length < S →
        fsFind (handle_upload fs req input now).1 (tdir ++ [tname]) = none ∧
        tname ∉ childNames (handle_upload fs req input now).1 tdir ∧
        (handle_upload fs req input now).2.getLast? =
          some (Ev.send (errResp "Transfer incomplete"))) ∧
    (S ≤ input.length →
        fsFind (handle_upload fs req input now).1 (tdir ++ [tname]) =
          some (Node.file (input.take S) now) ∧
        (handle_upload fs req input now).2.getLast? =
          some (Ev.send { status := "success", message := some "Upload complete" })) := by
  have hm : ¬(req.filename = "" ∨ req.size = none) := by
    rintro (hh | hh)
    · exact hfn hh
    · rw [hsz] at hh; cases hh
  have hopen : writeFileOpen fs (tdir ++ [tname]) now =
      Except.ok (fsInsert fs (tdir ++ [tname]) (Node.file [] now)) := by
    simp [writeFileOpen, hnotdir, List.dropLast_concat, hparent]
  have hbytes : (recvLoop input S 0).1 = input.take S := recvLoop_bytes input S
  by_cases hlt : input.length < S
  · have hcount : (recvLoop input S 0).2.1 = input.length := by
      rw [recvLoop_count]; omega
    have hne : ¬ (recvLoop input S 0).2.1 = S := by omega
    have hsome : (fsFind (fsInsert (fsInsert fs (tdir ++ [tname]) (Node.file [] now))
        (tdir ++ [tname]) (Node.file (recvLoop input S 0).1 now))
        (tdir ++ [tname])).isSome = true := by
      rw [fsFind_insert_self]; rfl
    have heval : handle_upload fs req input now =
        (fsErase (fsInsert (fsInsert fs (tdir ++ [tname]) (Node.file [] now))
           (tdir ++ [tname]) (Node.file (recvLoop input S 0).1 now)) (tdir ++ [tname]),
         Ev.send readyResp ::
           ((recvLoop input S 0).2.2.map (fun pr => Ev.recvReq pr.1 pr.2)) ++
           [Ev.send { status := "error", message := some "Transfer incomplete" }]) := by
      simp [handle_upload, hfn, hm, hfull, hsz, htgt, hopen, hne, hsome]
    refine ⟨?_, ?_, ?_, ?_⟩
    · rw [heval]
      rfl
    · rw [heval]
      intro r g hmem
      rcases List.mem_cons.mp hmem with hh | hh
      · cases hh
      · rcases List.mem_append.mp hh with hh2 | hh2
        · rcases List.mem_map.mp hh2 with ⟨pr, hpr, heq⟩
          cases heq
          exact recvLoop_reqs_le input S pr hpr
        · cases List.mem_singleton.mp hh2
    · intro _
      have hfind : fsFind (handle_upload fs req input now).1 (tdir ++ [tname]) = none := by
        rw [heval]
        exact fsFind_erase_self _ _
      refine ⟨hfind, ?_, ?_⟩
      · intro hmem
        exact (fsFind_eq_none_iff _ _).mp hfind ((mem_childNames _ tdir tname).mp hmem)
      · rw [heval]
        exact getLast?_cons_concat _ _ _
    · intro hge
      omega
  · have hge : S ≤ input.length := by omega
    have hcount : (recvLoop input S 0).2.1 = S := by
      rw [recvLoop_count]; omega
    have heval : handle_upload fs req input now =
        (fsInsert (fsInsert fs (tdir ++ [tname]) (Node.file [] now))
           (tdir ++ [tname]) (Node.file (recvLoop input S 0).1 now),
         Ev.send readyResp ::
           ((recvLoop input S 0).2.2.map (fun pr => Ev.recvReq pr.1 pr.2)) ++
           [Ev.send { status := "success", message := some "Upload complete" }]) := by
      simp [handle_upload, hfn, hm, hfull, hsz, htgt, hopen, hcount]
    refine ⟨?_, ?_, ?_, ?_⟩
    · rw [heval]
      rfl
    · rw [heval]
      intro r g hmem
      rcases List.mem_cons.mp hmem with hh | hh
      · cases hh
      · rcases List.mem_append.mp hh with hh2 | hh2
        · rcases List.mem_map.mp hh2 with ⟨pr, hpr, heq⟩
          cases heq
          exact recvLoop_reqs_le input S pr hpr
        · cases List.mem_singleton.mp hh2
    · intro hlt2
      omega
    · intro _
      refine ⟨?_, ?_⟩
      · rw [heval]
        show fsFind (fsInsert _ (tdir ++ [tname]) (Node.file (recvLoop input S 0).1 now))
          (tdir ++ [tname]) = some (Node.file (input.take S) now)
        rw [fsFind_insert_self, hbytes]
      · rw [heval]
        exact getLast?_cons_concat _ _ _

/-- Witness for the C4 theorem at a concrete short upload: declared size 5,
only two payload bytes before EOF — the partial file is deleted and the final
reply is the transfer-incomplete error, with the `ready` handshake first. -/
theorem upload_protocol_spec_witness :
    ("a.txt" : String) ≠ "" ∧
    get_full_path "" = Except.ok basePath ∧
    resolveAbsStr (osJoin basePath "a.txt") = storageRoot ++ ["a.txt"] ∧
    isDir fs0 (storageRoot ++ ["a.txt"]) = false ∧
    isDir fs0 storageRoot = true ∧
    fsFind (handle_upload fs0
        { command := "UPLOAD", path := "", filename := "a.txt", size := some 5 }
        [10, 20] 9).1 (storageRoot ++ ["a.txt"]) = none ∧
    (handle_upload fs0
        { command := "UPLOAD", path := "", filename := "a.txt", size := some 5 }
        [10, 20] 9).2.getLast? = some (Ev.send (errResp "Transfer incomplete")) ∧
    (handle_upload fs0
        { command := "UPLOAD", path := "", filename := "a.txt", size := some 5 }
        [10, 20] 9).2.head? = some (Ev.send readyResp) := by
  have h := upload_protocol_spec fs0
    { command := "UPLOAD", path := "", filename := "a.txt", size := some 5 }
    [10, 20] 9 5 basePath storageRoot "a.txt"
    (by decide) rfl (by decide) (by decide) (by decide) (by decide)
  obtain ⟨hfail1, hfail2, hfail3⟩ := h.2.2.1 (by decide)
  exact ⟨by decide, by decide, by decide, by decide, by decide, hfail1, hfail3, h.1⟩

/-- Claim C8. Round-trip: for every byte content `C`, uploading a file of
content `C` (declared size `C.length`, full payload delivered) and then
downloading it under the same name yields payload bytes identical to `C`,
with the download handshake declaring size `C.length`. The statement is
universal in `C`, so it covers the chunk-boundary sizes 0, 1, 8191, 8192,
8193 and 10 MiB alike. -/
theorem upload_download_roundtrip (fs : FS) (req : Request) (now : Nat) (C : List Nat)
    (full : String) (tdir : AbsPath) (tname : String)
    (hfn : req.filename ≠ "")
    (hsz : req.size = some C.length)
    (hfull : get_full_path req.path = Except.ok full)
    (htgt : resolveAbsStr (osJoin full req.filename) = tdir ++ [tname])
    (hnotdir : isDir fs (tdir ++ [tname]) = false)
    (hparent : isDir fs tdir = true) :
    sentPayload (handle_download (handle_upload fs req C now).1 req).2 = C ∧
    (handle_download (handle_upload fs req C now).1 req).2.head? =
      some (Ev.send { status := "success", size := some C.length }) := by
  have hm : ¬(req.filename = "" ∨ req.size = none) := by
    rintro (hh | hh)
    · exact hfn hh
    · rw [hsz] at hh; cases hh
  have hopen : writeFileOpen fs (tdir ++ [tname]) now =
      Except.ok (fsInsert fs (tdir ++ [tname]) (Node.file [] now)) := by
    simp [writeFileOpen, hnotdir, List.dropLast_concat, hparent]
  have hcount : (recvLoop C C.length 0).2.1 = C.length := by
    rw [recvLoop_count]; omega
  have hbytes : (recvLoop C C.length 0).1 = C := by
    rw [recvLoop_bytes]; exact List.take_length C
  have hup : (handle_upload fs req C now).1 =
      fsInsert (fsInsert fs (tdir ++ [tname]) (Node.file [] now))
        (tdir ++ [tname]) (Node.file C now) := by
    simp [handle_upload, hfn, hm, hfull, hsz, htgt, hopen, hcount, hbytes]
  have hfind : fsFind (handle_upload fs req C now).1 (tdir ++ [tname]) =
      some (Node.file C now) := by
    rw [hup]; exact fsFind_insert_self _ _ _
  have hdl : handle_download (handle_upload fs req C now).1 req =
      ((handle_upload fs req C now).1,
       Ev.send { status := "success", size := some C.length } ::
         (fileChunks C).map Ev.sendBytes) := by
    simp [handle_download, hfull, htgt, hfind]
  constructor
  · rw [hdl]
    show sentPayload (Ev.send _ :: (fileChunks C).map Ev.sendBytes) = C
    rw [sentPayload_cons_send, sentPayload_chunks, fileChunks_flatten]
  · rw [hdl]
    rfl

/-- Witness for the C8 theorem at a concrete three-byte content. -/
theorem upload_download_roundtrip_witness :
    sentPayload (handle_download
        (handle_upload fs0
          { command := "UPLOAD", path := "", filename := "r.bin", size := some 3 }
          [5, 6, 7] 2).1
        { command := "UPLOAD", path := "", filename := "r.bin", size := some 3 }).2 =
      [5, 6, 7] :=
  (upload_download_roundtrip fs0
    { command := "UPLOAD", path := "", filename := "r.bin", size := some 3 }
    2 [5, 6, 7] basePath storageRoot "r.bin"
    (by decide) rfl (by decide) (by decide) (by decide) (by decide)).1

/-- Claim C9 (implicit, confirmed). In the client's `download_file`, when the
handshake declares size `S` but the socket yields fewer than `S` bytes before
EOF, the read loop exits without raising: no error notification is emitted,
the `"Downloaded <filename>"` success notification is still the final event,
and the partially written local file — exactly the bytes that did arrive — is
left in place. A short download is never detected or reported as a failure. -/
theorem client_short_download_reports_success (st : ClientSt)
    (filename targetPath : String) (S : Nat) (input : List Nat)
    (hconn : st.connected = true)
    (hlen : input.length < S) :
    (download_file st filename targetPath
        (some { status := "success", size := some S }) input).2.1 = some input ∧
    (∀ m, CEv.err m ∉ (download_file st filename targetPath
        (some { status := "success", size := some S }) input).2.2) ∧
    (download_file st filename targetPath
        (some { status := "success", size := some S }) input).2.2.getLast? =
      some (CEv.log ("Downloaded " ++ filename) "success") := by
  have hbytes : (recvLoop input S 0).1 = input := by
    rw [recvLoop_bytes]; exact List.take_of_length_le (Nat.le_of_lt hlen)
  have heval : download_file st filename targetPath
      (some { status := "success", size := some S }) input =
      ({ st with buffer := "", is_transferring := false },
       some (recvLoop input S 0).1,
       [CEv.sent { command := "DOWNLOAD", filename := filename, path := targetPath },
        CEv.log ("Downloaded " ++ filename) "success"]) := by
    simp [download_file, hconn]
  rw [heval]
  refine ⟨by rw [hbytes], ?_, rfl⟩
  intro m hmem
  rcases List.mem_cons.mp hmem with hh | hh
  · cases hh
  · cases List.mem_singleton.mp hh

/-- Witness for the C9 theorem: declared size 4, two bytes delivered — the
local file holds the two bytes and the final notification is the success
log. -/
theorem client_short_download_reports_success_witness :
    (download_file { connected := true } "f.bin" ""
        (some { status := "success", size := some 4 }) [1, 2]).2.1 = some [1, 2] ∧
    (download_file { connected := true } "f.bin" ""
        (some { status := "success", size := some 4 }) [1, 2]).2.2.getLast? =
      some (CEv.log "Downloaded f.bin" "success") := by
  have h := client_short_download_reports_success { connected := true } "f.bin" "" 4
    [1, 2] (by decide) (by decide)
  exact ⟨h.1, h.2.2⟩

/-- Claim C10. On every successful connection attempt, `do_connect` marks the
worker connected and the only request it writes to the socket is
`{"command": "LIST", "path": ""}` — the root listing is always the first
exchange after connecting, before any user-initiated request. -/
theorem connect_sends_root_list (st : ClientSt) :
    (do_connect st true).1.connected = true ∧
    (do_connect st true).2.filterMap sentReq = [{ command := "LIST", path := "" }] := by
  simp [do_connect, sentReq, List.filterMap]

end MiniDrive
